import Mathlib

set_option maxHeartbeats 1000000
set_option linter.unnecessarySeqFocus false

/-!  Formal model of the case-record normalization, migration, recompute,
storage and CSV-import logic of `src/app.py` (the Caseboard application).

Values produced by Python's `json.load` are modelled by the inductive type
`Json`; Python dictionaries are association lists with (as produced by
`json.load`) unique keys.  Python exceptions raised by the modelled code
(AttributeError from duck-typed attribute access, JSONDecodeError from
`json.load`, pydantic ValidationError) are modelled with `Except`.
JSON numbers are modelled as integers and calendar dates as integer
ordinals; only their linear order is relevant to the properties proved
here.  -/

inductive Json where
  | null : Json
  | bool : Bool → Json
  | num : Int → Json
  | str : String → Json
  | arr : List Json → Json
  | obj : List (String × Json) → Json

mutual

/-- Structural equality on `Json` values. -/
def Json.beq : Json → Json → Bool
  | .null, .null => true
  | .bool a, .bool b => a == b
  | .num a, .num b => a == b
  | .str a, .str b => a == b
  | .arr a, .arr b => Json.beqList a b
  | .obj a, .obj b => Json.beqKvs a b
  | _, _ => false

def Json.beqList : List Json → List Json → Bool
  | [], [] => true
  | x :: xs, y :: ys => Json.beq x y && Json.beqList xs ys
  | _, _ => false

def Json.beqKvs : List (String × Json) → List (String × Json) → Bool
  | [], [] => true
  | (k, v) :: xs, (k', v') :: ys => k == k' && Json.beq v v' && Json.beqKvs xs ys
  | _, _ => false

end

instance : BEq Json := ⟨Json.beq⟩

/-- Python truthiness (`bool(x)`) of a loaded JSON value: `None`, `False`,
`0`, `""`, `[]` and `{}` are falsy, everything else is truthy. -/
def Json.truthy : Json → Bool
  | .null => false
  | .bool b => b
  | .num n => n != 0
  | .str s => s != ""
  | .arr xs => !xs.isEmpty
  | .obj kvs => !kvs.isEmpty

/-- Python `==` on loaded JSON values.  Python numeric equality equates
`True` with `1` and `False` with `0`; every other comparison performed by
the code modelled in this file is between strings, `None`, booleans, or a
composite value and itself, where Python `==` coincides with structural
equality, so the structural catch-all case is faithful for all
comparisons actually reached. -/
def Json.pyEq (a b : Json) : Bool :=
  match a, b with
  | .bool x, .num n => (if x then (1 : Int) else 0) == n
  | .num n, .bool x => n == (if x then (1 : Int) else 0)
  | _, _ => Json.beq a b

/-- A Python dict as loaded from JSON: an association list with unique keys. -/
abbrev Dict := List (String × Json)

/-- Key lookup, distinguishing an absent key. -/
def dictLookup : Dict → String → Option Json
  | [], _ => none
  | (k', v) :: rest, k => if k' = k then some v else dictLookup rest k

/-- Python `d.get(k, dflt)`. -/
def dictGetD (d : Dict) (k : String) (dflt : Json) : Json :=
  (dictLookup d k).getD dflt

/-- Python `d.get(k)`: an absent key yields `None`.  (A stored JSON `null`
and an absent key are conflated, exactly as Python's `dict.get` conflates
them.) -/
def dictGet (d : Dict) (k : String) : Json :=
  dictGetD d k .null

/-- Python `d[k] = v`: replaces the value at an existing key in place
(Python dicts keep the insertion position of an existing key), otherwise
appends the new key at the end. -/
def dictSet : Dict → String → Json → Dict
  | [], k, v => [(k, v)]
  | (k', v') :: rest, k, v =>
      if k' = k then (k, v) :: rest else (k', v') :: dictSet rest k v

-- ## Basic lemmas about `Json` equality and dict operations

mutual

theorem Json.beq_refl : ∀ a : Json, Json.beq a a = true
  | .null => rfl
  | .bool b => by simp [Json.beq]
  | .num n => by simp [Json.beq]
  | .str s => by simp [Json.beq]
  | .arr xs => by simpa [Json.beq] using Json.beqList_refl xs
  | .obj kvs => by simpa [Json.beq] using Json.beqKvs_refl kvs

theorem Json.beqList_refl : ∀ xs : List Json, Json.beqList xs xs = true
  | [] => rfl
  | x :: xs => by simp [Json.beqList, Json.beq_refl x, Json.beqList_refl xs]

theorem Json.beqKvs_refl : ∀ xs : List (String × Json), Json.beqKvs xs xs = true
  | [] => rfl
  | (k, v) :: xs => by
      simp [Json.beqKvs, Json.beq_refl v, Json.beqKvs_refl xs]

end

mutual

theorem Json.eq_of_beq : ∀ a b : Json, Json.beq a b = true → a = b
  | .null, b, h => by cases b <;> simp [Json.beq] at h ⊢
  | .bool a, b, h => by cases b <;> simp [Json.beq] at h ⊢ <;> exact h
  | .num a, b, h => by cases b <;> simp [Json.beq] at h ⊢ <;> exact h
  | .str a, b, h => by cases b <;> simp [Json.beq] at h ⊢ <;> exact h
  | .arr xs, b, h => by
      cases b <;> simp [Json.beq] at h ⊢
      case arr ys => exact Json.eqList_of_beq xs ys h
  | .obj kvs, b, h => by
      cases b <;> simp [Json.beq] at h ⊢
      case obj kvs' => exact Json.eqKvs_of_beq kvs kvs' h

theorem Json.eqList_of_beq : ∀ a b : List Json, Json.beqList a b = true → a = b
  | [], [], _ => rfl
  | [], _ :: _, h => by simp [Json.beqList] at h
  | _ :: _, [], h => by simp [Json.beqList] at h
  | x :: xs, y :: ys, h => by
      simp [Json.beqList] at h
      rw [Json.eq_of_beq x y h.1, Json.eqList_of_beq xs ys h.2]

theorem Json.eqKvs_of_beq :
    ∀ a b : List (String × Json), Json.beqKvs a b = true → a = b
  | [], [], _ => rfl
  | [], _ :: _, h => by simp [Json.beqKvs] at h
  | _ :: _, [], h => by simp [Json.beqKvs] at h
  | (k, v) :: xs, (k', v') :: ys, h => by
      simp [Json.beqKvs] at h
      rw [h.1.1, Json.eq_of_beq v v' h.1.2, Json.eqKvs_of_beq xs ys h.2]

end

instance : DecidableEq Json := fun a b =>
  if h : Json.beq a b = true then .isTrue (Json.eq_of_beq a b h)
  else .isFalse (fun hc => h (hc ▸ Json.beq_refl a))

theorem Json.pyEq_refl (a : Json) : a.pyEq a = true := by
  cases a <;> simp [Json.pyEq, Json.beq_refl]

theorem Json.beq_str_iff (a : Json) (s : String) :
    Json.beq a (.str s) = true ↔ a = .str s := by
  cases a <;> simp [Json.beq]

theorem Json.pyEq_str_iff (a : Json) (s : String) :
    Json.pyEq a (.str s) = true ↔ a = .str s := by
  cases a <;> simp [Json.pyEq, Json.beq]

theorem dictLookup_set_self (d : Dict) (k : String) (v : Json) :
    dictLookup (dictSet d k v) k = some v := by
  induction d with
  | nil => simp [dictSet, dictLookup]
  | cons hd tl ih =>
      obtain ⟨k', v'⟩ := hd
      by_cases h : k' = k <;> simp [dictSet, dictLookup, h, ih]

theorem dictLookup_set_ne (d : Dict) (k k' : String) (v : Json) (h : k' ≠ k) :
    dictLookup (dictSet d k v) k' = dictLookup d k' := by
  have hne : ¬ k = k' := fun hh => h hh.symm
  induction d with
  | nil => simp [dictSet, dictLookup, hne]
  | cons hd tl ih =>
      obtain ⟨k0, v0⟩ := hd
      by_cases h0 : k0 = k
      · subst h0
        simp [dictSet, dictLookup, hne]
      · simp [dictSet, dictLookup, h0, ih]

theorem dictSet_eq_of_lookup (d : Dict) (k : String) (v : Json)
    (h : dictLookup d k = some v) : dictSet d k v = d := by
  induction d with
  | nil => simp [dictLookup] at h
  | cons hd tl ih =>
      obtain ⟨k0, v0⟩ := hd
      by_cases h0 : k0 = k
      · subst h0
        simp [dictLookup] at h
        simp [dictSet, h]
      · simp [dictLookup, h0] at h
        simp [dictSet, h0, ih h]

theorem dictGet_eq_str (d : Dict) (k : String) (s : String)
    (h : dictGet d k = .str s) : dictLookup d k = some (.str s) := by
  unfold dictGet dictGetD at h
  cases hl : dictLookup d k with
  | none => simp [hl] at h
  | some v => simp [hl] at h; rw [h]

/-- Decidable equality for `Except` results, used to evaluate the model on
concrete inputs. -/
instance {ε α : Type} [DecidableEq ε] [DecidableEq α] : DecidableEq (Except ε α) :=
  fun a b =>
    match a, b with
    | .ok x, .ok y =>
        if h : x = y then .isTrue (by rw [h])
        else .isFalse (by intro hc; cases hc; exact h rfl)
    | .error x, .error y =>
        if h : x = y then .isTrue (by rw [h])
        else .isFalse (by intro hc; cases hc; exact h rfl)
    | .ok _, .error _ => .isFalse (by intro hc; cases hc)
    | .error _, .ok _ => .isFalse (by intro hc; cases hc)

-- ## Normalization utilities (src/app.py lines 366-423)

/-- Python `str.strip()` with no arguments: remove leading and trailing
whitespace. -/
def pyStrip (s : String) : String :=
  ⟨((s.data.dropWhile Char.isWhitespace).reverse.dropWhile Char.isWhitespace).reverse⟩

/-- Python `str.lower()`; every dictionary key and enum value involved is
ASCII, where this is character-wise lowering. -/
def pyLower (s : String) : String :=
  ⟨s.data.map Char.toLower⟩

/-- The canonical stages: the `Stage` literal type (src/app.py:85). -/
def STAGES : List String :=
  ["Pre-filing", "Filed", "Discovery", "Pretrial", "Trial", "Closed"]

/-- The canonical statuses: the `Status` literal type (src/app.py:87). -/
def STATUSES : List String :=
  ["Prospect", "Pre-Filing", "Active", "Settlement", "Post-Trial", "Appeal"]

/-- Lookup in a string-to-string dict (`dict.get`). -/
def lookupS : List (String × String) → String → Option String
  | [], _ => none
  | (k', v) :: rest, k => if k' = k then some v else lookupS rest k

/-- `VALID_STAGES = {stage.lower(): stage for stage in Stage.__args__}`. -/
def VALID_STAGES : List (String × String) := STAGES.map (fun s => (pyLower s, s))

/-- `VALID_STATUSES = {status.lower(): status for status in Status.__args__}`. -/
def VALID_STATUSES : List (String × String) := STATUSES.map (fun s => (pyLower s, s))

/-- `_STAGE_SYNONYMS` (src/app.py:370). -/
def STAGE_SYNONYMS : List (String × String) :=
  [("pre filing", "Pre-filing"), ("prefiling", "Pre-filing"), ("pre-filed", "Pre-filing")]

/-- `_STATUS_SYNONYMS` (src/app.py:375). -/
def STATUS_SYNONYMS : List (String × String) :=
  [("pre-filing", "Pre-Filing"), ("pre filing", "Pre-Filing"), ("prefiling", "Pre-Filing"),
   ("pre-filling", "Pre-Filing"), ("pre-filling ", "Pre-Filing"),
   ("prospect", "Prospect"), ("active", "Active"), ("settlement", "Settlement"),
   ("post-trial", "Post-Trial"), ("post trial", "Post-Trial"), ("appeal", "Appeal")]

/-- `normalize` (src/app.py:393) applied to a value of its annotated type
`Optional[str]`: `None` maps to `""`, a string is stripped. -/
def normalizeStr : Option String → String
  | none => ""
  | some s => pyStrip s

/-- `normalize` (src/app.py:393) as reached with an arbitrary stored JSON
value — the migration layer passes raw JSON field values into
`normalize_stage` / `normalize_status`.  `None` maps to `""`, a string is
stripped, and any other value raises `AttributeError` (`text.strip()` on a
value with no `strip` attribute). -/
def pyNormalize : Json → Except Unit String
  | .null => .ok ""
  | .str s => .ok (pyStrip s)
  | _ => .error ()

/-- `normalize_stage` (src/app.py:399) after the initial `normalize` call:
empty value means no stage; otherwise a case-insensitive exact match wins,
then the synonym table is consulted. -/
def normalize_stage_of (value : String) : Option String :=
  if value = "" then none
  else
    let key := pyLower value
    match lookupS VALID_STAGES key with
    | some s => some s
    | none => lookupS STAGE_SYNONYMS key

/-- `normalize_stage(raw)` on an arbitrary stored JSON value (raises on a
non-string, non-null input, as `normalize` does). -/
def normalize_stage (raw : Json) : Except Unit (Option String) :=
  (pyNormalize raw).map normalize_stage_of

/-- `normalize_stage` on an actual string (the CSV import path). -/
def normalize_stage_s (raw : String) : Option String :=
  normalize_stage_of (pyStrip raw)

/-- `normalize_status` (src/app.py:411) after the initial `normalize` call.
The synonym values are all non-empty, so Python's `if mapped:` truthiness
test coincides with the option match. -/
def normalize_status_of (value : String) : Option String :=
  if value = "" then none
  else
    let key := pyLower value
    match lookupS VALID_STATUSES key with
    | some s => some s
    | none => lookupS STATUS_SYNONYMS key

/-- `normalize_status(raw)` on an arbitrary stored JSON value. -/
def normalize_status (raw : Json) : Except Unit (Option String) :=
  (pyNormalize raw).map normalize_status_of

/-- `normalize_status` on an actual string (the CSV import path). -/
def normalize_status_s (raw : String) : Option String :=
  normalize_status_of (pyStrip raw)

example : normalize_stage (.str " pre-filed ") = .ok (some "Pre-filing") := by decide
example : normalize_status_s "Pre-Filling" = some "Pre-Filing" := by decide
example : normalize_status (.num 3) = .error () := by decide

-- ## Migration layer (src/app.py lines 192-269)

/-- The special statuses hard-coded in `_migrate_raw_case` (src/app.py:205):
`("Settlement", "Post-Trial", "Appeal")`.  Note that, unlike the module's
`SPECIAL_STATUSES` constant, this tuple does not contain `"Prospect"`. -/
def MIGRATION_SPECIALS : List String := ["Settlement", "Post-Trial", "Appeal"]

/-- `(case.get("case_number") or "").strip()` (src/app.py:206): a falsy
value becomes `""`; a truthy string is stripped; a truthy non-string
raises `AttributeError`. -/
def case_number_stripped (case : Dict) : Except Unit String :=
  let cn := dictGet case "case_number"
  if cn.truthy then
    match cn with
    | .str s => .ok (pyStrip s)
    | _ => .error ()
  else .ok ""

/-- The stage block of `_migrate_raw_case` (src/app.py:195-201): normalize
the stage, defaulting to `"Pre-filing"`, and write it back marking `changed`
when it differs from the stored value. -/
def stepStage (case : Dict) : Except Unit (Dict × Bool) :=
  match normalize_stage (dictGetD case "stage" (.str "")) with
  | .error e => .error e
  | .ok stageNorm0 =>
      let stageNorm := stageNorm0.getD "Pre-filing"
      if (dictGet case "stage").pyEq (.str stageNorm) then .ok (case, false)
      else .ok (dictSet case "stage" (.str stageNorm), true)

/-- The status block of `_migrate_raw_case` (src/app.py:203-210): normalize
the status with tolerance; when unresolved or not one of the migration's
special statuses, derive from whether a case number is present. -/
def stepStatus (case : Dict) : Except Unit (Dict × Bool) :=
  match normalize_status (dictGetD case "status" (.str "")) with
  | .error e => .error e
  | .ok statusNorm0 =>
      let derived : Except Unit String :=
        match case_number_stripped case with
        | .error e => .error e
        | .ok cn => .ok (if cn ≠ "" then "Active" else "Pre-Filing")
      let statusNormE : Except Unit String :=
        match statusNorm0 with
        | some s => if s ∈ MIGRATION_SPECIALS then .ok s else derived
        | none => derived
      match statusNormE with
      | .error e => .error e
      | .ok statusNorm =>
          if (dictGet case "status").pyEq (.str statusNorm) then .ok (case, false)
          else .ok (dictSet case "status" (.str statusNorm), true)

/-- The attention block of `_migrate_raw_case` (src/app.py:212-215). -/
def stepAttention (case : Dict) : Dict × Bool :=
  let a := dictGet case "attention"
  if a.pyEq (.str "needs_attention") || a.pyEq (.str "waiting") || a.pyEq (.str "") then
    (case, false)
  else (dictSet case "attention" (.str ""), true)

/-- One iteration of the deadline loop body (src/app.py:223-235) on a dict
entry: coerce the three fields and compare against the stored values.  The
third disjunct of the `changed` test in the source compares
`bool(item.get("resolved", False))` with itself and is always false. -/
def migrate_deadline_item (item : Dict) : Dict × Bool :=
  let dueRaw := dictGet item "due_date"
  let due := if dueRaw.truthy then dueRaw else .null
  let descRaw := dictGet item "description"
  let desc := if descRaw.truthy then descRaw else .str ""
  let res := (dictGetD item "resolved" (.bool false)).truthy
  let out : Dict := [("due_date", due), ("description", desc), ("resolved", .bool res)]
  (out, !(dueRaw.pyEq due) || !(descRaw.pyEq desc) || !(res == res))

/-- The deadline loop (src/app.py:222-235), written as a right fold: the
`changed` flag is an or-accumulation, so the fold direction does not affect
the result.  Non-dict entries are dropped with `changed = True`. -/
def migrate_deadlines_list : List Json → List Json × Bool
  | [] => ([], false)
  | j :: rest =>
      let (tail, chT) := migrate_deadlines_list rest
      match j with
      | .obj kvs =>
          let (o, c) := migrate_deadline_item kvs
          (Json.obj o :: tail, c || chT)
      | _ => (tail, true)

/-- The deadlines block of `_migrate_raw_case` (src/app.py:217-236): a
non-list `deadlines` value is replaced by an empty list with
`changed = True`, each entry is coerced, and the result is written back. -/
def stepDeadlines (case : Dict) : Dict × Bool :=
  let (dls, ch0) :=
    match dictGet case "deadlines" with
    | .arr xs => (xs, false)
    | _ => (([] : List Json), true)
  let (out, ch1) := migrate_deadlines_list dls
  (dictSet case "deadlines" (.arr out), ch0 || ch1)

/-- The focus-log block of `_migrate_raw_case` (src/app.py:238-242). -/
def stepFocusLog (case : Dict) : Dict × Bool :=
  match dictGet case "focus_log" with
  | .arr _ => (case, false)
  | _ => (dictSet case "focus_log" (.arr []), true)

/-- `_migrate_raw_case` (src/app.py:192-244).  The source threads a single
mutable `changed` flag through the five field blocks; here each block
returns its own flag and the result is their disjunction, which is the same
value. -/
def migrate_raw_case (d : Dict) : Except Unit (Dict × Bool) :=
  match stepStage d with
  | .error e => .error e
  | .ok (c1, b1) =>
      match stepStatus c1 with
      | .error e => .error e
      | .ok (c2, b2) =>
          let (c3, b3) := stepAttention c2
          let (c4, b4) := stepDeadlines c3
          let (c5, b5) := stepFocusLog c4
          .ok (c5, b1 || b2 || b3 || b4 || b5)

/-- The per-case loop of `_migrate_raw_file` (src/app.py:256-263), written
as a right fold (the `changed` flag is an or-accumulation): non-dict
entries are dropped with `changed = True`, dict entries are migrated. -/
def migrate_cases_list : List Json → Except Unit (List Json × Bool)
  | [] => .ok ([], false)
  | c :: rest =>
      match migrate_cases_list rest with
      | .error e => .error e
      | .ok (tail, chT) =>
          match c with
          | .obj kvs =>
              match migrate_raw_case kvs with
              | .error e => .error e
              | .ok (nc, ch) => .ok (Json.obj nc :: tail, ch || chT)
          | _ => .ok (tail, true)

/-- `_migrate_raw_file` (src/app.py:247-269).  `now` stands for
`datetime.utcnow().isoformat()`.  A non-dict input is replaced wholesale by
an empty schema-version-1 file.  For a dict input, a missing or non-list
`cases` value resets to the empty list (the source assigns
`raw["cases"] = []` and immediately overwrites it with `new_cases` below,
so only the final assignment is modelled); each case entry is migrated;
and the schema version is forced to 1. -/
def migrate_raw_file (now : String) (raw : Json) : Except Unit (Json × Bool) :=
  match raw with
  | .obj kvs =>
      let (cases, ch0) :=
        match dictGet kvs "cases" with
        | .arr xs => (xs, false)
        | _ => (([] : List Json), true)
      match migrate_cases_list cases with
      | .error e => .error e
      | .ok (newCases, ch1) =>
          let kvs1 := dictSet kvs "cases" (.arr newCases)
          let (kvs2, ch2) :=
            if (dictGet kvs1 "schema_version").pyEq (.num 1) then (kvs1, false)
            else (dictSet kvs1 "schema_version" (.num 1), true)
          .ok (.obj kvs2, ch0 || ch1 || ch2)
  | _ =>
      .ok (.obj [("schema_version", .num 1), ("saved_at", .str now), ("cases", .arr [])], true)

-- ## The Case model (src/app.py lines 67-157) and recompute (lines 300-312)

/-- `FocusEntry` (src/app.py:67).  The `at` field is named `timestamp` here
(`at` is reserved in Lean); timestamps are opaque strings. -/
structure FocusEntry where
  timestamp : String
  author : String
  text : String
deriving DecidableEq

/-- `Deadline` (src/app.py:80); dates are integer ordinals. -/
structure Deadline where
  due_date : Option Int
  description : String
  resolved : Bool := false
deriving DecidableEq

/-- `ColleagueTask` (src/app.py:72); the `at` field is named `timestamp`. -/
structure ColleagueTask where
  id : String
  timestamp : String
  author : String
  task : String
  reviewed : Bool := false
  reviewed_at : Option String := none
deriving DecidableEq

/-- `ICDCode` (src/app.py:96). -/
structure ICDCode where
  code : String
  description : Option String := none
deriving DecidableEq

/-- `Provider` (src/app.py:100). -/
structure Provider where
  name : String
  role : Option String := none
  represents : Option String := none
  company : Option String := none
  phone : Option String := none
  claim_number : Option String := none
  policy_number : Option String := none
  notes : Option String := none
deriving DecidableEq

/-- `ExternalRef` (src/app.py:89). -/
structure ExternalRef where
  filevine_id : Option String := none
  filevine_number : Option String := none
  linked_at : Option String := none
deriving DecidableEq

/-- `SPECIAL_STATUSES` (src/app.py:110): the module-level special set,
which (unlike the migration layer's hard-coded tuple) contains
`"Prospect"`. -/
def SPECIAL_STATUSES : List String := ["Prospect", "Settlement", "Post-Trial", "Appeal"]

/-- `Case` (src/app.py:113).  Field defaults mirror the pydantic defaults;
`id` is generated by a uuid factory in the source and modelled as a plain
string defaulting to `""`.  `stage`, `status` and `attention` are modelled
as strings (their pydantic `Literal` types restrict them to the canonical
values). -/
structure Case where
  id : String := ""
  client_name : String
  case_name : String
  case_type : String
  stage : String := "Pre-filing"
  status : String := "Pre-Filing"
  attention : String := ""
  paralegal : String := ""
  current_focus : String := ""
  focus_log : List FocusEntry := []
  deadlines : List Deadline := []
  colleague_tasks : List ColleagueTask := []
  case_number : Option String := none
  county : Option String := none
  division : Option String := none
  judge : Option String := none
  primary_attorney : Option String := none
  opposing_counsel : Option String := none
  opposing_firm : Option String := none
  client_address : Option String := none
  client_phone : Option String := none
  client_dob : Option Int := none
  claim_summary : String := ""
  icd10 : List ICDCode := []
  providers : List Provider := []
  top_priority : Bool := false
  archived : Bool := false
  next_due : Option Int := none
  external : ExternalRef := {}
deriving DecidableEq

/-- `bool((case.case_number or "").strip())` (src/app.py:307): the case
has a case number iff the stripped case number is non-empty.  A `None` or
empty case number yields `""` via the `or`. -/
def Case.has_case_number (c : Case) : Bool :=
  pyStrip (c.case_number.getD "") != ""

/-- `recompute` (src/app.py:300-312).  The source mutates the case in
place; this model returns the updated record.  The comprehension
`[d.due_date for d in case.deadlines if (not d.resolved) and (d.due_date is not None)]`
is the `filterMap` below, and `min(future) if future else None` is
`List.min?`. -/
def recompute (case : Case) : Case :=
  let future : List Int :=
    case.deadlines.filterMap (fun d => if d.resolved then none else d.due_date)
  let case1 := { case with next_due := future.min? }
  let case2 :=
    match case1.focus_log.getLast? with
    | some e => { case1 with current_focus := e.text }
    | none => case1
  if !case2.archived && ¬(case2.status ∈ SPECIAL_STATUSES) then
    { case2 with status := if case2.has_case_number then "Active" else "Pre-Filing" }
  else case2

-- ## CSV import, matched-row update path (src/app.py lines 426-432, 469-500)

/-- The `updates` dict built at src/app.py:486-497 for a matched row: each
field is either present with a (non-`None`) value or absent/`None`.
`apply_case_updates` skips `None` values, so absent and `None` entries are
modelled alike as `none`. -/
structure CaseUpdates where
  client_name : Option String := none
  case_name : Option String := none
  case_type : Option String := none
  paralegal : Option String := none
  current_focus : Option String := none
  case_number : Option String := none
  stage : Option String := none
  status : Option String := none
deriving DecidableEq

/-- `apply_case_updates` (src/app.py:426-432) as invoked from the CSV
importer: every field whose update value is `None` (or absent) keeps the
original value; the others are overwritten.  The pydantic re-validation
`Case(**data)` is the identity on the canonical string values supplied at
this call site. -/
def apply_case_updates (original : Case) (u : CaseUpdates) : Case :=
  { original with
    client_name := u.client_name.getD original.client_name
    case_name := u.case_name.getD original.case_name
    case_type := u.case_type.getD original.case_type
    paralegal := u.paralegal.getD original.paralegal
    current_focus := u.current_focus.getD original.current_focus
    case_number :=
      match u.case_number with
      | some s => some s
      | none => original.case_number
    stage := u.stage.getD original.stage
    status := u.status.getD original.status }

/-- One CSV data row, as read by `cell` (src/app.py:448-450): every value
has already been passed through `normalize` (missing columns and missing
cells read as `""`). -/
structure CsvRow where
  client_name : String := ""
  case_name : String := ""
  case_type : String := ""
  stage : String := ""
  status : String := ""
  paralegal : String := ""
  current_focus : String := ""
  case_number : String := ""
deriving DecidableEq

/-- The matched-row branch of `import_cases_from_csv`
(src/app.py:469-500): `case_type` defaults to `"Other"` when the cell is
blank (line 472); blank `paralegal`, `current_focus` and `case_number`
cells become `None` entries, which `apply_case_updates` skips; `stage` is
included only when recognized; `status` only when it normalizes to one of
`SPECIAL_STATUSES`; the merged case is then passed through `recompute`. -/
def import_row_update (existing : Case) (r : CsvRow) : Case :=
  let case_type := if r.case_type != "" then r.case_type else "Other"
  let stage_value := normalize_stage_s r.stage
  let status_value := normalize_status_s r.status
  let case_number : Option String := if r.case_number != "" then some r.case_number else none
  let u : CaseUpdates :=
    { client_name := some r.client_name
      case_name := some r.case_name
      case_type := if case_type != "" then some case_type else none
      paralegal := if r.paralegal != "" then some r.paralegal else none
      current_focus := if r.current_focus != "" then some r.current_focus else none
      case_number := case_number
      stage := stage_value
      status :=
        match status_value with
        | some s => if s ∈ SPECIAL_STATUSES then some s else none
        | none => none }
  recompute (apply_case_updates existing u)

-- ## Storage gateway (src/app.py lines 272-298)

/-- How `load` (src/app.py:272-288) can fail.  `parse` is a
`json.JSONDecodeError` escaping from `json.load` (nothing in `load`
catches it); `migrate` is an `AttributeError` escaping from
`_migrate_raw_file`; `validate` is a `ValidationError` raised by the
fallback `CaseFile(**raw)` inside the `except` block (which propagates). -/
inductive LoadError where
  | parse : LoadError
  | migrate : LoadError
  | validate : LoadError
deriving DecidableEq

/-- The fallback dict built at src/app.py:282:
`{"schema_version": 1, "saved_at": now, "cases": raw.get("cases", [])}`. -/
def load_fallback_raw (now : String) (raw1 : Json) : Json :=
  let salvaged :=
    match raw1 with
    | .obj kvs => dictGetD kvs "cases" (.arr [])
    | _ => .arr []
  .obj [("schema_version", .num 1), ("saved_at", .str now), ("cases", salvaged)]

/-- `load` (src/app.py:272-288).  The file system and pydantic are external
collaborators: `file` is `none` when the backing file does not exist, and
otherwise carries the result of `json.load` (`Except.error` for an
unparsable file); `validate` stands for the `CaseFile(**raw)` pydantic
constructor, and `emptyFile` for `CaseFile(saved_at=..., cases=[])`.
The returned flag is the `changed` flag, which triggers an immediate
re-save inside `load`.  Only the `CaseFile(**raw)` call at line 279 sits in
a `try`, and it catches only `ValidationError`: a parse error from
`json.load` and an `AttributeError` from the migration propagate, as does a
`ValidationError` from the second `CaseFile(**raw)` at line 283. -/
def load {CF : Type} (validate : Json → Except Unit CF) (emptyFile : CF)
    (file : Option (Except Unit Json)) (now : String) :
    Except LoadError (CF × Bool) :=
  match file with
  | none => .ok (emptyFile, false)
  | some (.error _) => .error .parse
  | some (.ok raw) =>
      match migrate_raw_file now raw with
      | .error _ => .error .migrate
      | .ok (raw1, changed) =>
          match validate raw1 with
          | .ok model => .ok (model, changed)
          | .error _ =>
              match validate (load_fallback_raw now raw1) with
              | .ok model => .ok (model, true)
              | .error _ => .error .validate

/-- The file-system state visible to `save` (src/app.py:290-298): the
canonical `data/cases.json` contents, the temporary `.tmp` file, and the
timestamped backup directory. -/
structure FileSystem where
  canonical : Option String := none
  tmp : Option String := none
  backups : List (String × String) := []
deriving DecidableEq

/-- `save` (src/app.py:290-298) on serialized content: write the temp
file, atomically move it over the canonical path, then copy the canonical
file to a timestamped backup.  `backupFails` models `shutil.copyfile`
raising (e.g. the backup directory is unwritable); no handler catches it,
so the exception escapes and the `save` call itself fails — after the
canonical file has already been replaced. -/
def save (content : String) (stamp : String) (backupFails : Bool)
    (fs : FileSystem) : Except Unit Unit × FileSystem :=
  let fs1 := { fs with tmp := some content }
  let fs2 := { fs1 with canonical := some content, tmp := none }
  if backupFails then (.error (), fs2)
  else (.ok (), { fs2 with backups := fs2.backups ++ [(stamp, content)] })

-- ## Lemmas about `recompute`

theorem recompute_next_due (c : Case) :
    (recompute c).next_due =
      (c.deadlines.filterMap (fun d => if d.resolved then none else d.due_date)).min? := by
  unfold recompute
  cases hgl : (c.focus_log).getLast? <;> simp [hgl] <;> split <;> simp

theorem recompute_status_eq (c : Case) :
    (recompute c).status =
      if !c.archived && ¬(c.status ∈ SPECIAL_STATUSES) then
        (if c.has_case_number then "Active" else "Pre-Filing")
      else c.status := by
  unfold recompute
  cases hgl : (c.focus_log).getLast? <;> simp [hgl, Case.has_case_number] <;> split <;> simp

theorem recompute_current_focus_aux (c : Case) (h : c.focus_log ≠ []) :
    (recompute c).current_focus = (c.focus_log.getLast h).text := by
  have hgl : c.focus_log.getLast? = some (c.focus_log.getLast h) :=
    List.getLast?_eq_getLast c.focus_log h
  unfold recompute
  simp [hgl]
  split <;> simp

theorem recompute_current_focus_empty (c : Case) (h : c.focus_log = []) :
    (recompute c).current_focus = c.current_focus := by
  unfold recompute
  simp [h]
  split <;> simp

theorem recompute_frame (c : Case) :
    (recompute c).id = c.id ∧ (recompute c).client_name = c.client_name ∧
    (recompute c).case_name = c.case_name ∧ (recompute c).case_type = c.case_type ∧
    (recompute c).stage = c.stage ∧ (recompute c).attention = c.attention ∧
    (recompute c).paralegal = c.paralegal ∧ (recompute c).focus_log = c.focus_log ∧
    (recompute c).deadlines = c.deadlines ∧
    (recompute c).colleague_tasks = c.colleague_tasks ∧
    (recompute c).case_number = c.case_number ∧ (recompute c).county = c.county ∧
    (recompute c).division = c.division ∧ (recompute c).judge = c.judge ∧
    (recompute c).primary_attorney = c.primary_attorney ∧
    (recompute c).opposing_counsel = c.opposing_counsel ∧
    (recompute c).opposing_firm = c.opposing_firm ∧
    (recompute c).client_address = c.client_address ∧
    (recompute c).client_phone = c.client_phone ∧
    (recompute c).client_dob = c.client_dob ∧
    (recompute c).claim_summary = c.claim_summary ∧
    (recompute c).icd10 = c.icd10 ∧ (recompute c).providers = c.providers ∧
    (recompute c).top_priority = c.top_priority ∧
    (recompute c).archived = c.archived ∧ (recompute c).external = c.external := by
  unfold recompute
  cases hgl : c.focus_log.getLast? <;> simp [hgl] <;> split <;> simp

-- ## Claim C2

/-- C2: for every case that is not archived and whose status is not one of
the special locked statuses (`SPECIAL_STATUSES`), after `recompute` the
status equals `"Active"` iff the stripped `case_number` is non-empty and
equals `"Pre-Filing"` iff it is empty; archived cases and cases with a
special locked status keep their status unchanged. -/
theorem recompute_status_derivation (c : Case) :
    (¬ c.archived = true → c.status ∉ SPECIAL_STATUSES →
      (((recompute c).status = "Active" ↔ pyStrip (c.case_number.getD "") ≠ "") ∧
       ((recompute c).status = "Pre-Filing" ↔ pyStrip (c.case_number.getD "") = ""))) ∧
    ((c.archived = true ∨ c.status ∈ SPECIAL_STATUSES) → (recompute c).status = c.status) := by
  rw [recompute_status_eq c]
  constructor
  · intro ha hs
    simp only [Case.has_case_number]
    by_cases hcn : pyStrip (c.case_number.getD "") = "" <;>
      simp [ha, hs, hcn]
  · intro h
    rcases h with h | h <;> simp [h]

/-- A concrete non-archived case with a case number. -/
def caseJane : Case :=
  { client_name := "Jane", case_name := "Doe v. Acme", case_type := "PI",
    case_number := some "24-CV-001" }

/-- Witness for C2: a non-archived, non-special case with a case number
recomputes to `"Active"`. -/
theorem recompute_status_derivation_witness :
    (recompute caseJane).status = "Active" := by
  have h := recompute_status_derivation caseJane
  exact (h.1 (by decide) (by decide)).1.mpr (by decide)

-- ## Claim C3

/-- C3: for every case, after `recompute`, `next_due` is an achieved lower
bound of the due dates of unresolved deadlines with a non-null date, and is
null exactly when no such deadline exists. -/
theorem recompute_next_due_min (c : Case) :
    (∀ v : Int, (recompute c).next_due = some v →
        (∃ d ∈ c.deadlines, d.resolved = false ∧ d.due_date = some v) ∧
        (∀ d ∈ c.deadlines, d.resolved = false → ∀ w : Int, d.due_date = some w → v ≤ w)) ∧
    ((recompute c).next_due = none ↔ ∀ d ∈ c.deadlines, d.resolved = true ∨ d.due_date = none) := by
  rw [recompute_next_due c]
  constructor
  · intro v hv
    constructor
    · have hm : v ∈ c.deadlines.filterMap (fun d => if d.resolved then none else d.due_date) :=
        List.min?_mem (fun x y => min_choice x y) hv
      obtain ⟨d, hd, hfd⟩ := List.mem_filterMap.mp hm
      refine ⟨d, hd, ?_⟩
      cases hres : d.resolved <;> simp [hres] at hfd ⊢
      exact hfd
    · intro d hd hres w hw
      have hm : w ∈ c.deadlines.filterMap (fun d => if d.resolved then none else d.due_date) :=
        List.mem_filterMap.mpr ⟨d, hd, by simp [hres, hw]⟩
      exact (List.le_min?_iff (fun _ _ _ => le_min_iff) hv (x := v)).mp le_rfl w hm
  · rw [List.min?_eq_none_iff, List.filterMap_eq_nil_iff]
    constructor
    · intro h d hd
      have := h d hd
      cases hres : d.resolved <;> simp [hres] at this ⊢
      exact this
    · intro h d hd
      rcases h d hd with h1 | h1 <;> simp [h1]

/-- A concrete case with two unresolved deadlines (days 20 and 10) and a
resolved one (day 5). -/
def caseDeadlines : Case :=
  { client_name := "A", case_name := "B", case_type := "C",
    deadlines := [⟨some 20, "answer", false⟩, ⟨some 10, "motion", false⟩,
                  ⟨some 5, "served", true⟩] }

/-- Witness for C3: the minimum 10 of the unresolved dated deadlines is
attained by an unresolved deadline. -/
theorem recompute_next_due_min_witness :
    ∃ d ∈ caseDeadlines.deadlines, d.resolved = false ∧ d.due_date = some 10 :=
  ((recompute_next_due_min caseDeadlines).1 10 (by decide)).1

-- ## Claim C4

/-- C4: for every case with a non-empty `focus_log`, after `recompute`,
`current_focus` equals the text of the last (most recently appended) entry
of `focus_log`. -/
theorem recompute_current_focus_last (c : Case) (h : c.focus_log ≠ []) :
    (recompute c).current_focus = (c.focus_log.getLast h).text :=
  recompute_current_focus_aux c h

/-- A concrete case with a two-entry focus log. -/
def caseFocus : Case :=
  { client_name := "A", case_name := "B", case_type := "C",
    focus_log := [⟨"2024-01-01", "WB", "old note"⟩,
                  ⟨"2024-02-01", "NC", "new note"⟩] }

/-- Witness for C4: the focus mirrors the last focus-log entry. -/
theorem recompute_current_focus_last_witness :
    (recompute caseFocus).current_focus = "new note" := by
  have h := recompute_current_focus_last caseFocus (by decide)
  rw [h]
  decide

-- ## Claim C10

/-- C10: `recompute` modifies only the derived fields `next_due`,
`current_focus` and (conditionally) `status`: every other field of the case
is unchanged, and when `focus_log` is empty `current_focus` keeps its
previous value.  (`recompute` receives and returns a single case, so no
other case is involved.) -/
theorem recompute_only_derived_fields (c : Case) :
    ((recompute c).id = c.id ∧ (recompute c).client_name = c.client_name ∧
     (recompute c).case_name = c.case_name ∧ (recompute c).case_type = c.case_type ∧
     (recompute c).stage = c.stage ∧ (recompute c).attention = c.attention ∧
     (recompute c).paralegal = c.paralegal ∧ (recompute c).focus_log = c.focus_log ∧
     (recompute c).deadlines = c.deadlines ∧
     (recompute c).colleague_tasks = c.colleague_tasks ∧
     (recompute c).case_number = c.case_number ∧ (recompute c).county = c.county ∧
     (recompute c).division = c.division ∧ (recompute c).judge = c.judge ∧
     (recompute c).primary_attorney = c.primary_attorney ∧
     (recompute c).opposing_counsel = c.opposing_counsel ∧
     (recompute c).opposing_firm = c.opposing_firm ∧
     (recompute c).client_address = c.client_address ∧
     (recompute c).client_phone = c.client_phone ∧
     (recompute c).client_dob = c.client_dob ∧
     (recompute c).claim_summary = c.claim_summary ∧
     (recompute c).icd10 = c.icd10 ∧ (recompute c).providers = c.providers ∧
     (recompute c).top_priority = c.top_priority ∧
     (recompute c).archived = c.archived ∧ (recompute c).external = c.external) ∧
    (c.focus_log = [] → (recompute c).current_focus = c.current_focus) :=
  ⟨recompute_frame c, fun h => recompute_current_focus_empty c h⟩

/-- A concrete case with an empty focus log and a manually set focus. -/
def caseKeepFocus : Case :=
  { client_name := "A", case_name := "B", case_type := "C",
    paralegal := "PL", current_focus := "keep me" }

/-- Witness for C10: with an empty focus log, `current_focus` is kept. -/
theorem recompute_only_derived_fields_witness :
    (recompute caseKeepFocus).current_focus = "keep me" := by
  have h := (recompute_only_derived_fields caseKeepFocus).2 rfl
  exact h.trans rfl

-- ## Claim C9

theorem recompute_case_type (c : Case) : (recompute c).case_type = c.case_type :=
  (recompute_frame c).2.2.2.1

theorem recompute_paralegal (c : Case) : (recompute c).paralegal = c.paralegal :=
  (recompute_frame c).2.2.2.2.2.2.1

theorem recompute_case_number (c : Case) : (recompute c).case_number = c.case_number :=
  (recompute_frame c).2.2.2.2.2.2.2.2.2.2.1

/-- An existing stored case with case type `"PI"` and a paralegal. -/
def caseExistingPI : Case :=
  { client_name := "Jane", case_name := "Doe v. Acme", case_type := "PI",
    paralegal := "Sam" }

/-- A matching CSV row whose `case_type`, `paralegal`, `current_focus` and
`case_number` cells are all blank. -/
def rowBlankCells : CsvRow :=
  { client_name := "Jane", case_name := "Doe v. Acme" }

/-- Counterexample to C9 as stated: for a matched row with an empty
`case_type` cell, the existing `case_type` `"PI"` is overridden with the
default `"Other"` rather than kept (src/app.py:472 defaults the blank cell
to `"Other"` before the update dict is built). -/
theorem import_blank_case_type_overrides :
    caseExistingPI.case_type = "PI" ∧ rowBlankCells.case_type = "" ∧
    (import_row_update caseExistingPI rowBlankCells).case_type = "Other" := by
  refine ⟨rfl, rfl, ?_⟩
  rw [import_row_update, recompute_case_type]
  decide

/-- C9 (amended): for a matched CSV row, blank `paralegal`,
`current_focus` and `case_number` cells leave the existing values
untouched (for `current_focus`, provided the recompute pass does not
re-derive it from a non-empty focus log); a blank `case_type` cell,
however, overrides the existing `case_type` with the default `"Other"`. -/
theorem import_row_update_blank_cells (existing : Case) (r : CsvRow) :
    (r.paralegal = "" → (import_row_update existing r).paralegal = existing.paralegal) ∧
    (r.case_number = "" → (import_row_update existing r).case_number = existing.case_number) ∧
    (r.current_focus = "" → existing.focus_log = [] →
      (import_row_update existing r).current_focus = existing.current_focus) ∧
    (r.case_type = "" → (import_row_update existing r).case_type = "Other") := by
  unfold import_row_update
  refine ⟨fun h => ?_, fun h => ?_, fun h hf => ?_, fun h => ?_⟩
  · rw [recompute_paralegal]; simp [apply_case_updates, h]
  · rw [recompute_case_number]; simp [apply_case_updates, h]
  · rw [recompute_current_focus_empty]
    · simp [apply_case_updates, h]
    · simp [apply_case_updates, hf]
  · rw [recompute_case_type]; simp [apply_case_updates, h]

/-- Witness for the amended C9: the blank `paralegal` cell keeps `"Sam"`. -/
theorem import_row_update_blank_cells_witness :
    (import_row_update caseExistingPI rowBlankCells).paralegal = "Sam" := by
  have h := (import_row_update_blank_cells caseExistingPI rowBlankCells).1 rfl
  exact h.trans rfl

-- ## Claim C8

/-- Counterexample to C8 as stated: when the backup copy fails, the `save`
call itself fails — the `shutil.copyfile` exception propagates, since
nothing in `save` catches it — even though the canonical file has already
been replaced with the new content. -/
theorem save_backup_failure_fails_save :
    save "payload" "20240101-000000" true {} =
      (.error (), { canonical := some "payload", tmp := none, backups := [] }) := by
  decide

/-- C8 (amended): after `save`, the canonical file always holds the fully
new content, whether or not the backup copy succeeds (the atomic replace
happens first); but a backup failure makes the `save` call itself raise
rather than complete successfully. -/
theorem save_canonical_written (content stamp : String) (b : Bool) (fs : FileSystem) :
    ((save content stamp b fs).2.canonical = some content) ∧
    (b = true → (save content stamp b fs).1 = .error ()) := by
  unfold save
  cases b <;> simp

/-- Witness for the amended C8: with a failing backup the canonical file is
written and the call raises. -/
theorem save_canonical_written_witness :
    (save "p" "s" true ({} : FileSystem)).1 = .error () :=
  (save_canonical_written "p" "s" true {}).2 rfl

-- ## Claim C7

/-- Counterexample to C7 as stated: an unparsable backing file — that is,
`json.load` raising — makes `load` itself raise, even with a validator
that accepts everything.  The only `try` in `load` wraps the
`CaseFile(**raw)` construction and catches only `ValidationError`. -/
theorem load_unparsable_file_raises :
    load (fun (_ : Json) => (.ok () : Except Unit Unit)) ()
      (some (.error ())) "2024-01-01T00:00:00" = .error .parse := by
  decide

/-- C7 (amended): `load` recovers only from pydantic validation failures:
when the file parses and migrates, and the migrated dict fails validation
while the fallback built from the salvaged case list validates, `load`
returns that fallback marked for immediate re-save (`changed = true`).  An
unparsable file propagates as a crash (as does a migration error or a
fallback that itself fails validation). -/
theorem load_recovery_spec {CF : Type} (validate : Json → Except Unit CF)
    (emptyFile : CF) (now : String) (raw raw1 : Json) (changed : Bool) (m : CF) :
    (load validate emptyFile (some (.error ())) now = .error .parse) ∧
    (migrate_raw_file now raw = .ok (raw1, changed) →
      validate raw1 = .error () →
      validate (load_fallback_raw now raw1) = .ok m →
      load validate emptyFile (some (.ok raw)) now = .ok (m, true)) := by
  constructor
  · rfl
  · intro hmig hval hfall
    unfold load
    simp only [hmig, hval, hfall]

/-- A validator model that accepts exactly dicts whose first key is
`schema_version` (so the migrated dict of the witness fails and the
rebuilt fallback passes). -/
def validateSchemaFirst : Json → Except Unit Unit :=
  fun j =>
    match j with
    | .obj (("schema_version", _) :: _) => .ok ()
    | _ => .error ()

/-- Witness for the amended C7: a parsed file that fails validation is
recovered via the fallback, marked changed. -/
theorem load_recovery_spec_witness :
    load validateSchemaFirst () (some (.ok (Json.obj []))) "T" = .ok ((), true) := by
  have h := (load_recovery_spec validateSchemaFirst () "T" (Json.obj [])
    (Json.obj [("cases", Json.arr []), ("schema_version", Json.num 1)]) true ()).2
  exact h (by decide) (by decide) (by decide)

-- ## Claim C5

/-- A case whose manually set status is `"Prospect"`. -/
def caseProspect : Case :=
  { client_name := "P", case_name := "Q", case_type := "R", status := "Prospect" }

/-- C5: evaluation of `_migrate_raw_case` at a stored case whose status is
the special locked value `"Prospect"` (and with no case number): migration
re-derives the status to `"Pre-Filing"` instead of preserving it, because
the tuple hard-coded at src/app.py:205 omits `"Prospect"` — unlike the
module's own `SPECIAL_STATUSES` (src/app.py:110), which `recompute`
honours, as the second conjunct shows. -/
theorem migrate_raw_case_drops_prospect :
    ((migrate_raw_case [("status", Json.str "Prospect")]).map
        (fun p => (dictLookup p.1 "status", p.2)) =
      .ok (some (Json.str "Pre-Filing"), true)) ∧
    (recompute caseProspect).status = "Prospect" := by
  constructor <;> decide

-- ## Frame lemmas: each migration step touches only its own field

theorem stepStage_frame (d c : Dict) (b : Bool) (h : stepStage d = .ok (c, b)) :
    ∀ k, k ≠ "stage" → dictLookup c k = dictLookup d k := by
  unfold stepStage at h
  cases hn : normalize_stage (dictGetD d "stage" (.str "")) with
  | error e => rw [hn] at h; cases h
  | ok o =>
      rw [hn] at h
      simp only at h
      split at h <;> (cases h; intro k hk)
      · rfl
      · exact dictLookup_set_ne d "stage" k _ hk

theorem stepStatus_frame (d c : Dict) (b : Bool) (h : stepStatus d = .ok (c, b)) :
    ∀ k, k ≠ "status" → dictLookup c k = dictLookup d k := by
  unfold stepStatus at h
  cases hn : normalize_status (dictGetD d "status" (.str "")) with
  | error e => rw [hn] at h; cases h
  | ok o =>
      rw [hn] at h
      simp only at h
      split at h
      · cases h
      · split at h <;> (cases h; intro k hk)
        · rfl
        · exact dictLookup_set_ne d "status" k _ hk

theorem stepAttention_frame (d : Dict) :
    ∀ k, k ≠ "attention" → dictLookup (stepAttention d).1 k = dictLookup d k := by
  unfold stepAttention
  intro k hk
  dsimp only
  split
  · rfl
  · exact dictLookup_set_ne d "attention" k _ hk

theorem stepDeadlines_frame (d : Dict) :
    ∀ k, k ≠ "deadlines" → dictLookup (stepDeadlines d).1 k = dictLookup d k := by
  unfold stepDeadlines
  intro k hk
  exact dictLookup_set_ne d "deadlines" k _ hk

theorem stepFocusLog_frame (d : Dict) :
    ∀ k, k ≠ "focus_log" → dictLookup (stepFocusLog d).1 k = dictLookup d k := by
  unfold stepFocusLog
  intro k hk
  split
  · rfl
  · exact dictLookup_set_ne d "focus_log" k _ hk

-- ## Totality of migration on well-shaped stage/status/case_number fields (C6)

/-- The stored value at key `k` is absent, null, or a string: exactly the
shapes `normalize` handles without raising. -/
def strOrNullField (d : Dict) (k : String) : Bool :=
  match dictLookup d k with
  | none => true
  | some .null => true
  | some (.str _) => true
  | some _ => false

/-- The stored `case_number` is a string or falsy: exactly the shapes
`(case.get("case_number") or "").strip()` handles without raising. -/
def caseNumberOk (d : Dict) : Bool :=
  match dictGet d "case_number" with
  | .str _ => true
  | v => !v.truthy

/-- The duck-typed accesses of `_migrate_raw_case` that can raise are
`strip` on the stage, the status and (when the status is not special) the
case number; this predicate rules the bad shapes out. -/
def caseFieldsOk (d : Dict) : Bool :=
  strOrNullField d "stage" && strOrNullField d "status" && caseNumberOk d

/-- Shape predicate on a stored case entry: non-dict entries are dropped by
the migration without being accessed. -/
def caseShapeOk : Json → Bool
  | .obj kvs => caseFieldsOk kvs
  | _ => true

/-- The case entries of a stored file, as the migration iterates them. -/
def file_cases (raw : Json) : List Json :=
  match raw with
  | .obj kvs =>
      match dictGet kvs "cases" with
      | .arr xs => xs
      | _ => []
  | _ => []

theorem normalize_stage_total (d : Dict) (h : strOrNullField d "stage" = true) :
    ∃ o, normalize_stage (dictGetD d "stage" (.str "")) = .ok o := by
  unfold strOrNullField at h
  unfold normalize_stage dictGetD
  cases hl : dictLookup d "stage" with
  | none => exact ⟨_, rfl⟩
  | some v => rw [hl] at h; cases v <;> simp_all [pyNormalize] <;> exact ⟨_, rfl⟩

theorem normalize_status_total (d : Dict) (h : strOrNullField d "status" = true) :
    ∃ o, normalize_status (dictGetD d "status" (.str "")) = .ok o := by
  unfold strOrNullField at h
  unfold normalize_status dictGetD
  cases hl : dictLookup d "status" with
  | none => exact ⟨_, rfl⟩
  | some v => rw [hl] at h; cases v <;> simp_all [pyNormalize] <;> exact ⟨_, rfl⟩

theorem case_number_stripped_total (d : Dict) (h : caseNumberOk d = true) :
    ∃ s, case_number_stripped d = .ok s := by
  unfold caseNumberOk at h
  unfold case_number_stripped
  cases hv : dictGet d "case_number" <;> rw [hv] at h <;> simp only [hv]
  case str s => split <;> exact ⟨_, rfl⟩
  all_goals simp_all [Json.truthy]

theorem stepStage_total (d : Dict) (h : strOrNullField d "stage" = true) :
    ∃ c b, stepStage d = .ok (c, b) := by
  obtain ⟨o, ho⟩ := normalize_stage_total d h
  unfold stepStage
  rw [ho]
  simp only
  split <;> exact ⟨_, _, rfl⟩

theorem stepStatus_total (d : Dict) (hs : strOrNullField d "status" = true)
    (hc : caseNumberOk d = true) : ∃ c b, stepStatus d = .ok (c, b) := by
  obtain ⟨o, ho⟩ := normalize_status_total d hs
  obtain ⟨cn, hcn⟩ := case_number_stripped_total d hc
  unfold stepStatus
  rw [ho]
  cases o with
  | none => simp only [hcn]; split <;> split <;> exact ⟨_, _, rfl⟩
  | some s =>
      by_cases hmem : s ∈ MIGRATION_SPECIALS <;> simp only [hcn, hmem, if_true, if_false, ite_true, ite_false]
      · split <;> exact ⟨_, _, rfl⟩
      · split <;> split <;> exact ⟨_, _, rfl⟩

theorem migrate_raw_case_total (d : Dict) (h : caseFieldsOk d = true) :
    ∃ r, migrate_raw_case d = .ok r := by
  unfold caseFieldsOk at h
  simp only [Bool.and_eq_true] at h
  obtain ⟨⟨h1, h2⟩, h3⟩ := h
  obtain ⟨c1, b1, hc1⟩ := stepStage_total d h1
  have hfr := stepStage_frame d c1 b1 hc1
  have h2' : strOrNullField c1 "status" = true := by
    unfold strOrNullField at h2 ⊢
    rw [hfr "status" (by decide)]
    exact h2
  have h3' : caseNumberOk c1 = true := by
    unfold caseNumberOk dictGet dictGetD at h3 ⊢
    rw [hfr "case_number" (by decide)]
    exact h3
  obtain ⟨c2, b2, hc2⟩ := stepStatus_total c1 h2' h3'
  unfold migrate_raw_case
  rw [hc1]
  dsimp only
  rw [hc2]
  exact ⟨_, rfl⟩

theorem migrate_cases_list_total (xs : List Json)
    (h : ∀ j ∈ xs, caseShapeOk j = true) :
    ∃ r, migrate_cases_list xs = .ok r := by
  induction xs with
  | nil => exact ⟨_, rfl⟩
  | cons c rest ih =>
      obtain ⟨⟨tail, chT⟩, htail⟩ := ih (fun j hj => h j (List.mem_cons_of_mem c hj))
      unfold migrate_cases_list
      rw [htail]
      cases c
      case obj kvs =>
        have hok := h (.obj kvs) (List.mem_cons_self _ _)
        obtain ⟨⟨nc, ch⟩, hnc⟩ := migrate_raw_case_total kvs (by simpa [caseShapeOk] using hok)
        dsimp only
        rw [hnc]
        exact ⟨_, rfl⟩
      all_goals exact ⟨_, rfl⟩

theorem migrate_raw_file_total_aux (now : String) (raw : Json)
    (h : ∀ j ∈ file_cases raw, caseShapeOk j = true) :
    ∃ r, migrate_raw_file now raw = .ok r := by
  cases raw
  case obj kvs =>
    unfold file_cases at h
    unfold migrate_raw_file
    cases hc : dictGet kvs "cases"
    case arr xs =>
      simp only [hc] at h
      obtain ⟨⟨newCases, ch⟩, hlist⟩ := migrate_cases_list_total xs h
      simp only [hc, hlist]
      split <;> exact ⟨_, rfl⟩
    all_goals
      simp only [hc]
      obtain ⟨⟨newCases, ch⟩, hlist⟩ := migrate_cases_list_total [] (by simp)
      simp only [hlist]
      split <;> exact ⟨_, rfl⟩
  all_goals exact ⟨_, rfl⟩

-- ## Claim C6

/-- A stored file whose case entries have odd but non-raising shapes: a
null stage, a numeric attention, a string deadlines value, a null focus
log, a falsy numeric case number, a junk non-dict case entry and a string
schema version. -/
def rawWeirdShapes : Json :=
  Json.obj [("cases", Json.arr [Json.obj [("stage", Json.null), ("attention", Json.num 7),
    ("deadlines", Json.str "oops"), ("focus_log", Json.null), ("case_number", Json.num 0)],
    Json.str "junk"]), ("schema_version", Json.str "2")]

/-- Counterexample to C6 as stated: a stored case whose `stage` is a number
makes the migration raise — `normalize_stage` calls `normalize`, which
calls `.strip()` on the non-string value (`AttributeError`) — so
`_migrate_raw_file` (and `_migrate_raw_case`) are not total over arbitrary
stored JSON. -/
theorem migrate_nonstring_stage_raises :
    migrate_raw_file "2024-06-01T00:00:00"
      (Json.obj [("cases", Json.arr [Json.obj [("stage", Json.num 5)]])]) = .error () := by
  decide

/-- C6 (amended): migration repairs arbitrary stored JSON and never raises
provided every stored case's `stage` and `status` are strings, null or
absent and its `case_number` is a string, null, absent or falsy; all other
fields (attention, deadlines, focus_log, ...) may have arbitrary shapes.  A
truthy non-string `case_number` or a non-string, non-null `stage` or
`status` raises `AttributeError` instead. -/
theorem migrate_raw_file_never_raises (now : String) (raw : Json)
    (h : ∀ j ∈ file_cases raw, caseShapeOk j = true) :
    ∃ r, migrate_raw_file now raw = .ok r :=
  migrate_raw_file_total_aux now raw h

/-- Witness for the amended C6: the odd-shaped but non-raising file is
repaired successfully. -/
theorem migrate_raw_file_never_raises_witness :
    ∃ r, migrate_raw_file "T" rawWeirdShapes = .ok r := by
  apply migrate_raw_file_never_raises
  intro j hj
  have he : file_cases rawWeirdShapes =
      [Json.obj [("stage", Json.null), ("attention", Json.num 7),
        ("deadlines", Json.str "oops"), ("focus_log", Json.null),
        ("case_number", Json.num 0)], Json.str "junk"] := by decide
  rw [he] at hj
  cases hj with
  | head => decide
  | tail _ hj2 =>
      cases hj2 with
      | head => decide
      | tail _ hj3 => cases hj3

-- ## Idempotence of migration (C1)

theorem dictGet_lookup_of_ne_null (d : Dict) (k : String) (v : Json)
    (h : dictGet d k = v) (hv : v ≠ .null) : dictLookup d k = some v := by
  unfold dictGet dictGetD at h
  cases hl : dictLookup d k with
  | none => rw [hl] at h; exact absurd h.symm hv
  | some w => rw [hl] at h; simp at h; rw [h]

theorem lookupS_mem (l : List (String × String)) (k v : String)
    (h : lookupS l k = some v) : v ∈ l.map Prod.snd := by
  induction l with
  | nil => cases h
  | cons hd tl ih =>
      obtain ⟨k0, v0⟩ := hd
      unfold lookupS at h
      split at h
      · cases h; exact List.mem_cons_self _ _
      · exact List.mem_cons_of_mem _ (ih h)

theorem normalize_stage_of_canonical (v s : String)
    (h : normalize_stage_of v = some s) : s ∈ STAGES := by
  unfold normalize_stage_of at h
  split at h
  · cases h
  · dsimp only at h
    split at h
    · next heq =>
        cases h
        simpa [VALID_STAGES] using lookupS_mem _ _ _ heq
    · have hm := lookupS_mem _ _ _ h
      simp [STAGE_SYNONYMS] at hm
      subst hm
      decide

theorem normalize_status_of_canonical (v s : String)
    (h : normalize_status_of v = some s) : s ∈ STATUSES := by
  unfold normalize_status_of at h
  split at h
  · cases h
  · dsimp only at h
    split at h
    · next heq =>
        cases h
        simpa [VALID_STATUSES] using lookupS_mem _ _ _ heq
    · have hm := lookupS_mem _ _ _ h
      simp [STATUS_SYNONYMS] at hm
      rcases hm with hm | hm | hm | hm | hm | hm <;> subst hm <;> decide

theorem normalize_stage_canonical (j : Json) (s : String)
    (h : normalize_stage j = .ok (some s)) : s ∈ STAGES := by
  unfold normalize_stage at h
  cases hp : pyNormalize j with
  | error e => rw [hp] at h; cases h
  | ok v =>
      rw [hp] at h
      simp [Except.map] at h
      exact normalize_stage_of_canonical v s h

theorem normalize_status_canonical (j : Json) (s : String)
    (h : normalize_status j = .ok (some s)) : s ∈ STATUSES := by
  unfold normalize_status at h
  cases hp : pyNormalize j with
  | error e => rw [hp] at h; cases h
  | ok v =>
      rw [hp] at h
      simp [Except.map] at h
      exact normalize_status_of_canonical v s h

theorem stage_canonical_fix (s : String) (h : s ∈ STAGES) :
    normalize_stage (.str s) = .ok (some s) := by
  fin_cases h <;> decide

theorem status_canonical_fix (s : String) (h : s ∈ STATUSES) :
    normalize_status (.str s) = .ok (some s) := by
  fin_cases h <;> decide

/-- Normal form of the `stage` field after migration: a canonical stage
string that renormalizes to itself. -/
def stageNF (c : Dict) : Prop :=
  ∃ s, dictLookup c "stage" = some (.str s) ∧ normalize_stage (.str s) = .ok (some s)

/-- Normal form of the `status` field after migration: a canonical status
string that renormalizes to itself and is either one of the migration's
special statuses or the value derived from the (unchanged) case number. -/
def statusNF (c : Dict) : Prop :=
  ∃ s, dictLookup c "status" = some (.str s) ∧ normalize_status (.str s) = .ok (some s) ∧
    (s ∈ MIGRATION_SPECIALS ∨
     ∃ cn, case_number_stripped c = .ok cn ∧ s = (if cn ≠ "" then "Active" else "Pre-Filing"))

/-- Normal form of the `attention` field: one of the three legal values. -/
def attentionNF (c : Dict) : Prop :=
  ((dictGet c "attention").pyEq (.str "needs_attention") ||
   (dictGet c "attention").pyEq (.str "waiting") ||
   (dictGet c "attention").pyEq (.str "")) = true

/-- Normal form of the `deadlines` field: a list the deadline loop maps to
itself without marking `changed`. -/
def deadlinesNF (c : Dict) : Prop :=
  ∃ out, dictLookup c "deadlines" = some (.arr out) ∧
    migrate_deadlines_list out = (out, false)

/-- Normal form of the `focus_log` field: a list. -/
def focusNF (c : Dict) : Prop :=
  ∃ xs, dictLookup c "focus_log" = some (.arr xs)

theorem stepStage_of_nf (c : Dict) (h : stageNF c) : stepStage c = .ok (c, false) := by
  obtain ⟨s, hl, hfix⟩ := h
  unfold stepStage
  have hgd : dictGetD c "stage" (.str "") = .str s := by
    unfold dictGetD; rw [hl]; rfl
  have hg : dictGet c "stage" = .str s := by
    unfold dictGet dictGetD; rw [hl]; rfl
  rw [hgd, hfix]
  dsimp only [Option.getD]
  rw [hg]
  simp [Json.pyEq_refl]

theorem stepStatus_of_nf (c : Dict) (h : statusNF c) : stepStatus c = .ok (c, false) := by
  obtain ⟨s, hl, hfix, hbr⟩ := h
  unfold stepStatus
  have hgd : dictGetD c "status" (.str "") = .str s := by
    unfold dictGetD; rw [hl]; rfl
  have hg : dictGet c "status" = .str s := by
    unfold dictGet dictGetD; rw [hl]; rfl
  rw [hgd, hfix]
  dsimp only
  by_cases hmem : s ∈ MIGRATION_SPECIALS
  · rw [if_pos hmem]
    dsimp only
    rw [hg]
    simp [Json.pyEq_refl]
  · rcases hbr with hbr | ⟨cn, hcn, hs⟩
    · exact absurd hbr hmem
    · rw [if_neg hmem, hcn]
      dsimp only
      rw [← hs, hg]
      simp [Json.pyEq_refl]

theorem stepAttention_of_nf (c : Dict) (h : attentionNF c) : stepAttention c = (c, false) := by
  unfold attentionNF at h
  unfold stepAttention
  dsimp only
  rw [if_pos h]

theorem stepDeadlines_of_nf (c : Dict) (h : deadlinesNF c) : stepDeadlines c = (c, false) := by
  obtain ⟨out, hl, hml⟩ := h
  have hg : dictGet c "deadlines" = .arr out := by
    unfold dictGet dictGetD; rw [hl]; rfl
  unfold stepDeadlines
  rw [hg]
  dsimp only
  rw [hml]
  dsimp only
  rw [dictSet_eq_of_lookup c "deadlines" (.arr out) hl]
  simp

theorem stepFocusLog_of_nf (c : Dict) (h : focusNF c) : stepFocusLog c = (c, false) := by
  obtain ⟨xs, hl⟩ := h
  have hg : dictGet c "focus_log" = .arr xs := by
    unfold dictGet dictGetD; rw [hl]; rfl
  unfold stepFocusLog
  rw [hg]

theorem stepStage_nf (d c : Dict) (b : Bool) (h : stepStage d = .ok (c, b)) :
    stageNF c := by
  unfold stepStage at h
  cases hn : normalize_stage (dictGetD d "stage" (.str "")) with
  | error e => rw [hn] at h; cases h
  | ok o =>
      rw [hn] at h
      dsimp only at h
      have hmem : o.getD "Pre-filing" ∈ STAGES := by
        cases o with
        | none => decide
        | some s => exact normalize_stage_canonical _ s hn
      split at h
      · next hpy =>
          cases h
          have hgs := (Json.pyEq_str_iff _ _).mp hpy
          exact ⟨o.getD "Pre-filing",
            dictGet_lookup_of_ne_null _ _ _ hgs (by intro hc; cases hc),
            stage_canonical_fix _ hmem⟩
      · cases h
        exact ⟨o.getD "Pre-filing", dictLookup_set_self d "stage" _,
          stage_canonical_fix _ hmem⟩

theorem case_number_stripped_congr (c d : Dict)
    (h : dictLookup c "case_number" = dictLookup d "case_number") :
    case_number_stripped c = case_number_stripped d := by
  unfold case_number_stripped dictGet dictGetD
  rw [h]

theorem status_tail_nf (d c : Dict) (b : Bool) (sn : String)
    (h : (if (dictGet d "status").pyEq (.str sn) = true then Except.ok (d, false)
          else Except.ok (dictSet d "status" (.str sn), true)) =
         (Except.ok (c, b) : Except Unit (Dict × Bool))) :
    dictLookup c "status" = some (.str sn) := by
  split at h
  · next hpy =>
      cases h
      exact dictGet_lookup_of_ne_null _ _ _ ((Json.pyEq_str_iff _ _).mp hpy)
        (by intro hc; cases hc)
  · cases h
    exact dictLookup_set_self d "status" _

theorem stepStatus_nf (d c : Dict) (b : Bool) (h : stepStatus d = .ok (c, b)) :
    statusNF c := by
  have hframe := stepStatus_frame d c b h
  have hcnf : case_number_stripped c = case_number_stripped d :=
    case_number_stripped_congr c d (hframe "case_number" (by decide))
  unfold stepStatus at h
  cases hn : normalize_status (dictGetD d "status" (.str "")) with
  | error e => rw [hn] at h; cases h
  | ok o =>
      rw [hn] at h
      dsimp only at h
      rcases o with _ | s
      · cases hcn : case_number_stripped d with
        | error e => rw [hcn] at h; cases h
        | ok cn =>
            rw [hcn] at h
            dsimp only at h
            refine ⟨_, status_tail_nf d c b _ h,
              status_canonical_fix _ (by split <;> decide),
              Or.inr ⟨cn, by rw [hcnf, hcn], rfl⟩⟩
      · by_cases hmem : s ∈ MIGRATION_SPECIALS
        · simp only [hmem, ite_true, if_true] at h
          exact ⟨s, status_tail_nf d c b s h,
            status_canonical_fix _ (normalize_status_canonical _ s hn),
            Or.inl hmem⟩
        · simp only [hmem, ite_false, if_false] at h
          cases hcn : case_number_stripped d with
          | error e => rw [hcn] at h; cases h
          | ok cn =>
              rw [hcn] at h
              dsimp only at h
              refine ⟨_, status_tail_nf d c b _ h,
                status_canonical_fix _ (by split <;> decide),
                Or.inr ⟨cn, by rw [hcnf, hcn], rfl⟩⟩

theorem stepAttention_nf (d : Dict) : attentionNF (stepAttention d).1 := by
  unfold stepAttention attentionNF
  dsimp only
  split
  · next hcond => exact hcond
  · have hs : dictGet (dictSet d "attention" (.str "")) "attention" = .str "" := by
      unfold dictGet dictGetD
      rw [dictLookup_set_self]
      rfl
    simp [hs, Json.pyEq_refl]

theorem migrate_deadline_item_shape (kvs : Dict) :
    ∃ due desc res, migrate_deadline_item kvs =
      ([("due_date", due), ("description", desc), ("resolved", Json.bool res)],
        (migrate_deadline_item kvs).2) ∧
      (due = .null ∨ due.truthy = true) ∧ (desc.truthy = true ∨ desc = .str "") := by
  unfold migrate_deadline_item
  dsimp only
  by_cases hdue : (dictGet kvs "due_date").truthy = true <;>
    by_cases hdesc : (dictGet kvs "description").truthy = true <;>
      simp [hdue, hdesc]
  · exact ⟨_, _, ⟨rfl, rfl⟩, Or.inr hdue, Or.inl hdesc⟩
  · exact ⟨_, _, ⟨rfl, rfl⟩, Or.inr hdue, Or.inr rfl⟩
  · exact ⟨_, _, ⟨rfl, rfl⟩, Or.inl rfl, Or.inl hdesc⟩
  · exact ⟨_, _, ⟨rfl, rfl⟩, Or.inl rfl, Or.inr rfl⟩

theorem migrate_deadline_item_idem (due desc : Json) (res : Bool)
    (hdue : due = .null ∨ due.truthy = true)
    (hdesc : desc.truthy = true ∨ desc = .str "") :
    migrate_deadline_item
        [("due_date", due), ("description", desc), ("resolved", Json.bool res)] =
      ([("due_date", due), ("description", desc), ("resolved", Json.bool res)], false) := by
  unfold migrate_deadline_item
  have h1 : dictGet [("due_date", due), ("description", desc),
      ("resolved", Json.bool res)] "due_date" = due := rfl
  have h2 : dictGet [("due_date", due), ("description", desc),
      ("resolved", Json.bool res)] "description" = desc := rfl
  have h3 : dictGetD [("due_date", due), ("description", desc),
      ("resolved", Json.bool res)] "resolved" (.bool false) = .bool res := rfl
  rw [h1, h2, h3]
  dsimp only
  have hdue2 : (if due.truthy = true then due else Json.null) = due := by
    rcases hdue with rfl | hdue
    · simp [Json.truthy]
    · simp [hdue]
  have hdesc2 : (if desc.truthy = true then desc else Json.str "") = desc := by
    rcases hdesc with hdesc | rfl
    · simp [hdesc]
    · simp [Json.truthy]
  rw [hdue2, hdesc2]
  simp [Json.pyEq_refl, Json.truthy]

theorem migrate_deadlines_list_cons_obj (kvs : Dict) (rest : List Json) :
    migrate_deadlines_list (Json.obj kvs :: rest) =
      (Json.obj (migrate_deadline_item kvs).1 :: (migrate_deadlines_list rest).1,
        (migrate_deadline_item kvs).2 || (migrate_deadlines_list rest).2) := rfl

theorem migrate_deadlines_list_idem (xs : List Json) :
    migrate_deadlines_list (migrate_deadlines_list xs).1 =
      ((migrate_deadlines_list xs).1, false) := by
  induction xs with
  | nil => rfl
  | cons j rest ih =>
      cases j
      case obj kvs =>
        obtain ⟨due, desc, res, hshape, hdue, hdesc⟩ := migrate_deadline_item_shape kvs
        have h1 : (migrate_deadline_item kvs).1 =
            [("due_date", due), ("description", desc), ("resolved", Json.bool res)] := by
          rw [hshape]
        rw [migrate_deadlines_list_cons_obj]
        dsimp only
        rw [h1, migrate_deadlines_list_cons_obj,
          migrate_deadline_item_idem due desc res hdue hdesc, ih]
        rfl
      all_goals exact ih


theorem stepDeadlines_nf (d : Dict) : deadlinesNF (stepDeadlines d).1 := by
  unfold stepDeadlines
  cases hg : dictGet d "deadlines" <;>
    exact ⟨_, dictLookup_set_self d "deadlines" _, migrate_deadlines_list_idem _⟩

theorem stepFocusLog_nf (d : Dict) : focusNF (stepFocusLog d).1 := by
  unfold stepFocusLog
  cases hg : dictGet d "focus_log"
  case arr xs =>
    exact ⟨xs, dictGet_lookup_of_ne_null d "focus_log" _ hg (by intro hc; cases hc)⟩
  all_goals exact ⟨[], dictLookup_set_self d "focus_log" _⟩

theorem stageNF_congr (c d : Dict) (h : dictLookup c "stage" = dictLookup d "stage")
    (hd : stageNF d) : stageNF c := by
  obtain ⟨s, hl, hfix⟩ := hd
  exact ⟨s, h.trans hl, hfix⟩

theorem statusNF_congr (c d : Dict)
    (h : dictLookup c "status" = dictLookup d "status")
    (hcn : dictLookup c "case_number" = dictLookup d "case_number")
    (hd : statusNF d) : statusNF c := by
  obtain ⟨s, hl, hfix, hbr⟩ := hd
  refine ⟨s, h.trans hl, hfix, ?_⟩
  rcases hbr with hbr | ⟨cn, hc1, hc2⟩
  · exact Or.inl hbr
  · exact Or.inr ⟨cn, (case_number_stripped_congr c d hcn).trans hc1, hc2⟩

theorem attentionNF_congr (c d : Dict)
    (h : dictLookup c "attention" = dictLookup d "attention")
    (hd : attentionNF d) : attentionNF c := by
  unfold attentionNF dictGet dictGetD at hd ⊢
  rw [h]
  exact hd

theorem deadlinesNF_congr (c d : Dict)
    (h : dictLookup c "deadlines" = dictLookup d "deadlines")
    (hd : deadlinesNF d) : deadlinesNF c := by
  obtain ⟨out, hl, hml⟩ := hd
  exact ⟨out, h.trans hl, hml⟩

theorem migrate_raw_case_idem (d c : Dict) (ch : Bool)
    (h : migrate_raw_case d = .ok (c, ch)) : migrate_raw_case c = .ok (c, false) := by
  unfold migrate_raw_case at h
  cases h1 : stepStage d with
  | error e => rw [h1] at h; cases h
  | ok p1 =>
      obtain ⟨c1, b1⟩ := p1
      rw [h1] at h
      dsimp only at h
      cases h2 : stepStatus c1 with
      | error e => rw [h2] at h; cases h
      | ok p2 =>
          obtain ⟨c2, b2⟩ := p2
          rw [h2] at h
          dsimp only at h
          -- name the pure tail
          have hc : c = (stepFocusLog (stepDeadlines (stepAttention c2).1).1).1 := by
            cases h; rfl
          -- frames from c2 to c
          have hf3 := stepAttention_frame c2
          have hf4 := stepDeadlines_frame (stepAttention c2).1
          have hf5 := stepFocusLog_frame (stepDeadlines (stepAttention c2).1).1
          have hkeep : ∀ k, k ≠ "attention" → k ≠ "deadlines" → k ≠ "focus_log" →
              dictLookup c k = dictLookup c2 k := by
            intro k ha hd2 hf
            rw [hc, hf5 k hf, hf4 k hd2, hf3 k ha]
          -- the five normal forms hold at c
          have nf1 : stageNF c := by
            refine stageNF_congr c c2 ?_ ?_
            · exact hkeep "stage" (by decide) (by decide) (by decide)
            · exact stageNF_congr c2 c1
                (stepStatus_frame c1 c2 b2 h2 "stage" (by decide))
                (stepStage_nf d c1 b1 h1)
          have nf2 : statusNF c := by
            refine statusNF_congr c c2 ?_ ?_ (stepStatus_nf c1 c2 b2 h2)
            · exact hkeep "status" (by decide) (by decide) (by decide)
            · exact hkeep "case_number" (by decide) (by decide) (by decide)
          have nf3 : attentionNF c := by
            refine attentionNF_congr c (stepAttention c2).1 ?_ (stepAttention_nf c2)
            rw [hc, hf5 "attention" (by decide), hf4 "attention" (by decide)]
          have nf4 : deadlinesNF c := by
            refine deadlinesNF_congr c (stepDeadlines (stepAttention c2).1).1 ?_
              (stepDeadlines_nf (stepAttention c2).1)
            rw [hc, hf5 "deadlines" (by decide)]
          have nf5 : focusNF c := by
            rw [hc]
            exact stepFocusLog_nf (stepDeadlines (stepAttention c2).1).1
          -- assemble the second run
          unfold migrate_raw_case
          rw [stepStage_of_nf c nf1]
          dsimp only
          rw [stepStatus_of_nf c nf2]
          dsimp only
          rw [stepAttention_of_nf c nf3, stepDeadlines_of_nf c nf4, stepFocusLog_of_nf c nf5]
          rfl

theorem migrate_cases_list_idem (xs : List Json) (out : List Json) (ch : Bool)
    (h : migrate_cases_list xs = .ok (out, ch)) :
    migrate_cases_list out = .ok (out, false) := by
  induction xs generalizing out ch with
  | nil => unfold migrate_cases_list at h; cases h; rfl
  | cons c rest ih =>
      unfold migrate_cases_list at h
      cases hrest : migrate_cases_list rest with
      | error e => rw [hrest] at h; cases h
      | ok p =>
          obtain ⟨tail, chT⟩ := p
          rw [hrest] at h
          dsimp only at h
          have htail := ih tail chT hrest
          cases c
          case obj kvs =>
            dsimp only at h
            cases hcase : migrate_raw_case kvs with
            | error e => rw [hcase] at h; cases h
            | ok q =>
                obtain ⟨nc, ch2⟩ := q
                rw [hcase] at h
                dsimp only at h
                cases h
                have hnc := migrate_raw_case_idem kvs nc ch2 hcase
                unfold migrate_cases_list
                rw [htail]
                dsimp only
                rw [hnc]
                rfl
          all_goals (cases h; exact htail)

theorem migrate_raw_file_fix (now2 : String) (kvs2 : List (String × Json))
    (newCases : List Json)
    (hlook : dictLookup kvs2 "cases" = some (.arr newCases))
    (hidem : migrate_cases_list newCases = .ok (newCases, false))
    (hsv : (dictGet kvs2 "schema_version").pyEq (.num 1) = true) :
    migrate_raw_file now2 (.obj kvs2) = .ok (.obj kvs2, false) := by
  have hget : dictGet kvs2 "cases" = .arr newCases := by
    unfold dictGet dictGetD; rw [hlook]; rfl
  unfold migrate_raw_file
  dsimp only
  rw [hget]
  dsimp only
  rw [hidem]
  dsimp only
  rw [dictSet_eq_of_lookup _ _ _ hlook]
  rw [if_pos hsv]
  rfl

theorem migrate_raw_file_idem_aux (now now2 : String) (raw out : Json) (ch : Bool)
    (h : migrate_raw_file now raw = .ok (out, ch)) :
    migrate_raw_file now2 out = .ok (out, false) := by
  cases raw
  case obj kvs =>
    unfold migrate_raw_file at h
    dsimp only at h
    cases hg : dictGet kvs "cases" <;> rw [hg] at h <;> dsimp only at h
    case arr xs =>
      cases hml : migrate_cases_list xs with
      | error e => rw [hml] at h; cases h
      | ok p =>
          obtain ⟨newCases, ch1⟩ := p
          rw [hml] at h
          dsimp only at h
          have hidem := migrate_cases_list_idem xs newCases ch1 hml
          have hlook : dictLookup (dictSet kvs "cases" (.arr newCases)) "cases" =
              some (.arr newCases) := dictLookup_set_self kvs "cases" _
          split at h
          · next hpy =>
              cases h
              exact migrate_raw_file_fix now2 _ newCases hlook hidem hpy
          · next hpy =>
              cases h
              refine migrate_raw_file_fix now2 _ newCases ?_ hidem ?_
              · rw [dictLookup_set_ne _ "schema_version" "cases" _ (by decide)]
                exact hlook
              · have hsv : dictGet (dictSet (dictSet kvs "cases" (.arr newCases))
                    "schema_version" (.num 1)) "schema_version" = .num 1 := by
                  unfold dictGet dictGetD
                  rw [dictLookup_set_self]
                  rfl
                rw [hsv]
                rfl
    all_goals
      cases hml : migrate_cases_list [] with
      | error e => rw [hml] at h; cases h
      | ok p =>
          obtain ⟨newCases, ch1⟩ := p
          rw [hml] at h
          dsimp only at h
          have hidem := migrate_cases_list_idem [] newCases ch1 hml
          have hlook : dictLookup (dictSet kvs "cases" (.arr newCases)) "cases" =
              some (.arr newCases) := dictLookup_set_self kvs "cases" _
          split at h
          · next hpy =>
              cases h
              exact migrate_raw_file_fix now2 _ newCases hlook hidem hpy
          · next hpy =>
              cases h
              refine migrate_raw_file_fix now2 _ newCases ?_ hidem ?_
              · rw [dictLookup_set_ne _ "schema_version" "cases" _ (by decide)]
                exact hlook
              · have hsv : dictGet (dictSet (dictSet kvs "cases" (.arr newCases))
                    "schema_version" (.num 1)) "schema_version" = .num 1 := by
                  unfold dictGet dictGetD
                  rw [dictLookup_set_self]
                  rfl
                rw [hsv]
                rfl
  all_goals (cases h; rfl)

/-- C1: migration is idempotent with respect to its `changed` flag:
whenever `_migrate_raw_file` produces a corrected output, running it again
on that output succeeds, returns the same output, and reports
`changed = false`, for every input value and any pair of timestamps. -/
theorem migrate_raw_file_idempotent (now now2 : String) (raw out : Json) (ch : Bool)
    (h : migrate_raw_file now raw = .ok (out, ch)) :
    migrate_raw_file now2 out = .ok (out, false) :=
  migrate_raw_file_idem_aux now now2 raw out ch h

/-- Witness for C1: the empty dict is repaired (`changed = true`) on the
first run, and the repaired output is a fixpoint with `changed = false`. -/
theorem migrate_raw_file_idempotent_witness :
    migrate_raw_file "T2"
        (Json.obj [("cases", Json.arr []), ("schema_version", Json.num 1)]) =
      .ok (Json.obj [("cases", Json.arr []), ("schema_version", Json.num 1)], false) :=
  migrate_raw_file_idempotent "T1" "T2" (Json.obj [])
    (Json.obj [("cases", Json.arr []), ("schema_version", Json.num 1)]) true (by decide)
